import Mathlib

/-!
Shallow embedding of `src/main.ts` of the obsidian-improvemynotes plugin
(class `OllamaPlugin`), covering the response decoder, the blocking
generation call (`improveText`), the streaming variant
(`streamImprovedText`), the insertion scheduler (`streamText`), the
placement controller (`improveSelectedText`) and the hotkey field
reader (`parseHotkey`).

Modelling conventions:
* JS strings are `List Char` (sequences of Unicode scalars; all concrete
  inputs used below stay in the BMP, where JS UTF-16 lengths agree with
  scalar counts).
* The editor buffer is a flat `List Char`; (line, ch) positions are
  converted to flat offsets the way the host editor does (offset of the
  start of the line plus `ch`, without per-line clamping).
* `JSON.parse` is a host builtin and is passed in as an oracle
  `parse : List Char → Option OllamaResp`; `parse l = none` models a
  thrown parse error (caught per line in the source), `some j` models a
  successful parse of an object with a string `response` field and a
  boolean `done` field.
* Network I/O (`requestUrl`) is passed in as
  `net : Except (List Char) (List Char)`: `.error m` is a thrown error
  with message `m`, `.ok raw` is a 2xx response with body text `raw`.
* `await` pacing delays do not affect the buffer and are dropped.
-/

namespace Ollama

/-- A (line, ch) position, as used by the host editor API. -/
structure Pos where
  line : Nat
  ch : Nat
deriving DecidableEq, Repr

/-- Editor state: flat buffer plus the current selection as flat offsets
(`selFrom ≤ selTo`; a collapsed selection `selFrom = selTo` is a cursor). -/
structure EditorState where
  buf : List Char
  selFrom : Nat
  selTo : Nat
deriving DecidableEq, Repr

/-- Host `editor.getSelection()`: the text between the selection endpoints. -/
def getSelection (e : EditorState) : List Char :=
  (e.buf.drop e.selFrom).take (e.selTo - e.selFrom)

/-- Flat offset of the start of line `n` of buffer `s` (offset just past
the `n`-th newline; clamped to the end when the line does not exist). -/
def lineStartOff : List Char → Nat → Nat
  | _, 0 => 0
  | [], _ + 1 => 0
  | c :: cs, n + 1 =>
    if c = '\n' then 1 + lineStartOff cs n else 1 + lineStartOff cs (n + 1)

/-- Host conversion of a (line, ch) position to a flat offset:
line start plus `ch` (offset arithmetic, not clamped to the line end). -/
def posToOffset (s : List Char) (p : Pos) : Nat :=
  lineStartOff s p.line + p.ch

/-- Host conversion of a flat offset to a (line, ch) position. -/
def offsetToPos (s : List Char) (o : Nat) : Pos :=
  ⟨(s.take o).count '\n', ((s.take o).reverse.takeWhile (fun c => c ≠ '\n')).length⟩

/-- Host `editor.getCursor(from)`. -/
def getCursorFrom (e : EditorState) : Pos := offsetToPos e.buf e.selFrom

/-- Host `editor.getCursor(to)`. -/
def getCursorTo (e : EditorState) : Pos := offsetToPos e.buf e.selTo

/-- Host `editor.replaceSelection(s)`: replace the selected range with `s`;
the selection collapses to a cursor placed after the inserted text
(CodeMirror `EditorState.replaceSelection` semantics). -/
def replaceSelection (e : EditorState) (s : List Char) : EditorState :=
  { buf := e.buf.take e.selFrom ++ s ++ e.buf.drop e.selTo
    selFrom := e.selFrom + s.length
    selTo := e.selFrom + s.length }

/-- How a flat offset is mapped through a replacement of `[f, t)` by a
run of length `len` (standard position mapping; only used to keep the
selection fields well defined — no code path reads the selection after a
`replaceRange`). -/
def mapOffset (f t len o : Nat) : Nat :=
  if o ≤ f then o else if t ≤ o then o - t + f + len else f + len

/-- Host `editor.replaceRange(s, fromP, toP)`. -/
def replaceRange (e : EditorState) (s : List Char) (fromP toP : Pos) : EditorState :=
  let f := posToOffset e.buf fromP
  let t := posToOffset e.buf toP
  { buf := e.buf.take f ++ s ++ e.buf.drop t
    selFrom := mapOffset f t s.length e.selFrom
    selTo := mapOffset f t s.length e.selTo }

/-- Host `editor.replaceRange(s, p)` with the end argument omitted: insertion. -/
def replaceRangeAt (e : EditorState) (s : List Char) (p : Pos) : EditorState :=
  replaceRange e s p p

/-- JS `String.prototype.split(sep)` for a single-character separator. -/
def splitOnChar (sep : Char) : List Char → List (List Char)
  | [] => [[]]
  | c :: cs =>
    match splitOnChar sep cs with
    | [] => [[]]
    | h :: t => if c = sep then [] :: h :: t else (c :: h) :: t

/-- The whitespace characters removed by JS `String.prototype.trim`
(ASCII subset; the exotic Unicode space characters never occur in the
inputs considered here). -/
def isJsWs (c : Char) : Bool :=
  c = ' ' || c = '\t' || c = '\n' || c = '\r' || c = Char.ofNat 11 || c = Char.ofNat 12

/-- JS `String.prototype.trim` (over the `isJsWs` set). -/
def trimWS (s : List Char) : List Char :=
  ((s.dropWhile isJsWs).reverse.dropWhile isJsWs).reverse

/-- The `streamingSpeed` setting (fast, medium or slow). -/
inductive StreamSpeed
  | fast
  | medium
  | slow
deriving DecidableEq, Repr

/-- The `OllamaSettings` record of `src/types.ts`, as used by `main.ts`.
The source field `improvedTextPrefix` is named `improvedTextPref` here. -/
structure OllamaSettings where
  instanceUrl : List Char
  model : List Char
  systemPrompt : List Char
  temperature : Rat
  maxTokens : Int
  insertBelow : Bool
  streamingSpeed : StreamSpeed
  showGeneratingText : Bool
  generatingText : List Char
  improvedTextPref : List Char
  improveHotkey : List Char
  replaceOriginal : Bool
  enableStreaming : Bool
deriving DecidableEq, Repr

/-- Constant `DEFAULT_SETTINGS` of `main.ts`. -/
def DEFAULT_SETTINGS : OllamaSettings where
  instanceUrl := "http://localhost:11434".toList
  model := "llama3.2".toList
  systemPrompt := ("You are an expert writer helping to improve notes. " ++
    "Make the text more clear, concise and well-structured.").toList
  temperature := 0.7
  maxTokens := 2000
  insertBelow := true
  streamingSpeed := StreamSpeed.medium
  showGeneratingText := true
  generatingText := "Improving...".toList
  improvedTextPref := "✨ Improved version:\n".toList
  improveHotkey := "Ctrl+Shift+B".toList
  replaceOriginal := false
  enableStreaming := true

/-- One parsed response line (`OllamaResponse` of `src/types.ts`):
an object with a string `response` field and a boolean `done` field. -/
structure OllamaResp where
  response : List Char
  done : Bool
deriving DecidableEq, Repr

/-- One decoded fragment (`GenerationFragment` of the spec's data model):
a successfully parsed line with a truthy (non-empty) `response` field. -/
structure Fragment where
  text : List Char
  isFinal : Bool
deriving DecidableEq, Repr

/-- Source `response.text.split(newline).filter(line => line.trim())` of
`improveText` / `streamImprovedText`: split on newlines and drop the
lines that are empty or all whitespace. -/
def decodeLines (raw : List Char) : List (List Char) :=
  (splitOnChar '\n' raw).filter (fun l => !(l.all isJsWs))

/-- The per-line body of the decode loop: `JSON.parse(line)` inside
`try`/`catch` (a thrown parse error is `parse l = none` and is skipped),
then the `if (jsonResponse.response)` truthiness test (a string is truthy
iff non-empty). -/
def lineFrag (parse : List Char → Option OllamaResp) (l : List Char) :
    Option Fragment :=
  match parse l with
  | some j => if j.response ≠ [] then some ⟨j.response, j.done⟩ else none
  | none => none

/-- The fragments produced by the decode step, in line order. -/
def decodeFragments (parse : List Char → Option OllamaResp) (raw : List Char) :
    List Fragment :=
  (decodeLines raw).filterMap (lineFrag parse)

/-- The accumulation loop of `improveText`:
`fullResponse += jsonResponse.response` over the kept lines. -/
def fullResponseOf (parse : List Char → Option OllamaResp) (raw : List Char) :
    List Char :=
  (decodeLines raw).foldl
    (fun acc l =>
      match parse l with
      | some j => if j.response ≠ [] then acc ++ j.response else acc
      | none => acc)
    []

/-- The per-line body of the `streamImprovedText` loop: the `response`
field passed to `onChunk` for a kept line, if any. -/
def lineChunk (parse : List Char → Option OllamaResp) (l : List Char) :
    Option (List Char) :=
  match parse l with
  | some j => if j.response ≠ [] then some j.response else none
  | none => none

/-- The chunk emissions of `streamImprovedText`: `onChunk` is invoked once
per kept line with the response field of the line, in line order. -/
def streamChunks (parse : List Char → Option OllamaResp) (raw : List Char) :
    List (List Char) :=
  (decodeLines raw).filterMap (lineChunk parse)

/-- The `response` field a line contributes (`[]` for a failed parse);
used to state the spec's "concatenation of all response fields". -/
def respOf (parse : List Char → Option OllamaResp) (l : List Char) : List Char :=
  match parse l with
  | some j => j.response
  | none => []

/-- Message of the error thrown by `improveText` on an empty decoded
concatenation. -/
def emptyRespMsg : List Char := "No response received from Ollama".toList

/-- Head of every error message rethrown by the `catch` block of
`improveText` / `streamImprovedText`. -/
def failMsgHead : List Char := "Failed to improve text: ".toList

/-- Notice text for an empty selection. -/
def noTextNotice : List Char := "No text selected".toList

/-- Head of the error notice of `improveSelectedText`. -/
def errNoticeHead : List Char := "Error: ".toList

/-- The two newlines inserted between the original text and the result
region in insert-below mode. -/
def twoNl : List Char := "\n\n".toList

/-- The body of the `try` block of `improveText` after the network call:
either the network error propagates, or the decoded concatenation is
tested; an error carrying `emptyRespMsg` is thrown when it is empty, and
`fullResponse` is returned otherwise. -/
def improveTextInner (parse : List Char → Option OllamaResp)
    (net : Except (List Char) (List Char)) : Except (List Char) (List Char) :=
  match net with
  | .error m => .error m
  | .ok raw =>
    if fullResponseOf parse raw = [] then
      .error emptyRespMsg
    else
      .ok (fullResponseOf parse raw)

/-- Function `improveText`, observable behaviour: the `catch` block
rethrows every error with the message of the caught error appended to
the fixed failure text. -/
def improveTextM (parse : List Char → Option OllamaResp)
    (net : Except (List Char) (List Char)) : Except (List Char) (List Char) :=
  match improveTextInner parse net with
  | .error m => .error (failMsgHead ++ m)
  | .ok r => .ok r

/-- The `options` object of the generate request bodies. -/
structure GenOptions where
  temperature : Rat
  num_predict : Int
deriving DecidableEq, Repr

/-- The JSON object passed to `JSON.stringify` as the POST body of
`{instanceUrl}/api/generate`. `stream = none` means the object literal
contains no `stream` key at all. -/
structure GenerateBody where
  model : List Char
  prompt : List Char
  system : List Char
  stream : Option Bool
  options : GenOptions
deriving DecidableEq, Repr

/-- The request body built by `improveText` (blocking mode): note the
templated prompt and the absence of a `stream` key. -/
def improveTextBody (s : OllamaSettings) (text : List Char) : GenerateBody where
  model := s.model
  prompt := "Please improve this text:\n\n".toList ++ text
  system := s.systemPrompt
  stream := none
  options := ⟨s.temperature, s.maxTokens⟩

/-- The request body built by `streamImprovedText` (streaming mode):
the raw text as prompt and `stream: true`. -/
def streamImprovedTextBody (s : OllamaSettings) (text : List Char) :
    GenerateBody where
  model := s.model
  prompt := text
  system := s.systemPrompt
  stream := some true
  options := ⟨s.temperature, s.maxTokens⟩

/-- The `Modifier` type of the host API, restricted to the values
`parseHotkey` can produce. -/
inductive HkModifier
  | Mod
  | Alt
  | Shift
  | Meta
deriving DecidableEq, Repr

/-- The `modifierMap` object lookup of `parseHotkey`, applied to an
already lowercased and trimmed token; an unrecognized token yields
`none` (`undefined`). -/
def modifierMap (m : List Char) : Option HkModifier :=
  if m = "ctrl".toList ∨ m = "cmd".toList ∨ m = "command".toList then
    some HkModifier.Mod
  else if m = "alt".toList ∨ m = "option".toList then some HkModifier.Alt
  else if m = "shift".toList then some HkModifier.Shift
  else if m = "meta".toList then some HkModifier.Meta
  else none

/-- Token normalization `mod.toLowerCase().trim()` applied to each token. -/
def normTok (t : List Char) : List Char := trimWS (t.map Char.toLower)

/-- The key token of a hotkey string: the last `+`-separated part,
lowercased and trimmed (`parts.pop()?.toLowerCase().trim() || ''` — the
popped token of a singleton split list, normalized). -/
def hotkeyKey (hk : List Char) : List Char :=
  normTok ((splitOnChar '+' hk).getLastD [])

/-- The surviving modifiers of a hotkey string: the non-last parts mapped
through `modifierMap` with unrecognized tokens filtered out. -/
def hotkeyMods (hk : List Char) : List HkModifier :=
  ((splitOnChar '+' hk).dropLast).filterMap (fun m => modifierMap (normTok m))

/-- Method `parseHotkey` of `main.ts`, applied to the `improveHotkey` setting:
`null` when the key is empty or no modifier survives. -/
def parseHotkey (hk : List Char) : Option (List HkModifier × List Char) :=
  if hotkeyKey hk = [] ∨ hotkeyMods hk = [] then none
  else some (hotkeyMods hk, hotkeyKey hk)

/-- The mutation trace of the paced loop of `streamText`: chunks of 2
characters (the last one possibly shorter), each paired with the
position it is inserted at; `currentPosition.ch` advances by the chunk
length, on the same line. -/
def pacedTrace : List Char → Pos → List (List Char × Pos)
  | [], _ => []
  | [a], p => [([a], p)]
  | a :: b :: t, p => ([a, b], p) :: pacedTrace t ⟨p.line, p.ch + 2⟩

/-- Apply a list of insertions to the editor, in order (each position is
converted against the buffer current at that point, as in the loop). -/
def applyMutations (e : EditorState) (ms : List (List Char × Pos)) : EditorState :=
  ms.foldl (fun e m => replaceRangeAt e m.1 m.2) e

/-- Method `streamText` of `main.ts`: a single `replaceRange` when streaming is
disabled, otherwise the paced chunk loop (the pacing delays do not touch
the buffer and are dropped). -/
def streamText (s : OllamaSettings) (e : EditorState) (text : List Char)
    (p : Pos) : EditorState :=
  if s.enableStreaming then applyMutations e (pacedTrace text p)
  else replaceRangeAt e text p

/-- Method `improveSelectedText` of `main.ts`. Returns the final editor state
and the notice shown, if any (`none` on the success paths). The
generation call is `improveTextM parse net`; its error branch is the
`catch` block. -/
def improveSelectedText (s : OllamaSettings)
    (parse : List Char → Option OllamaResp)
    (net : Except (List Char) (List Char)) (e : EditorState) :
    EditorState × Option (List Char) :=
  let selectedText := getSelection e
  if selectedText = [] then (e, some noTextNotice)
  else
    let originalPosition := getCursorFrom e
    let selectionEnd := getCursorTo e
    let e1 := if s.showGeneratingText then replaceSelection e s.generatingText
      else e
    match improveTextM parse net with
    | .error m =>
      -- catch block: restore attempt plus an error notice
      (if s.showGeneratingText then replaceSelection e1 selectedText else e1,
        some (errNoticeHead ++ m))
    | .ok improvedText =>
      if s.replaceOriginal then
        let e2 := if s.showGeneratingText then
            replaceRange e1 [] originalPosition
              ⟨originalPosition.line, originalPosition.ch + s.generatingText.length⟩
          else e1
        (streamText s e2 improvedText originalPosition, none)
      else
        let e2 := replaceSelection e1 selectedText
        let e3 := if s.improvedTextPref ≠ [] then
            replaceRangeAt e2 (twoNl ++ s.improvedTextPref) selectionEnd
          else replaceRangeAt e2 twoNl selectionEnd
        let newPosition : Pos :=
          ⟨selectionEnd.line + 2,
            if s.improvedTextPref ≠ [] then s.improvedTextPref.length else 0⟩
        (streamText s e3 improvedText newPosition, none)

/-! Concrete sample inputs for the closed theorems below. `parseSample`
plays the role of `JSON.parse` on the specific lines used: each listed
line is a well-formed JSON object and `parseSample` returns exactly the
record `JSON.parse` would produce for it; every other string is treated
as failing to parse. -/

/-- Sample NDJSON line carrying the response text `This `. -/
def jsonA : List Char := "\x7b\"response\":\"This \",\"done\":false\x7d".toList

/-- Sample NDJSON line carrying the response text `is better.`. -/
def jsonB : List Char := "\x7b\"response\":\"is better.\",\"done\":true\x7d".toList

/-- Sample NDJSON line carrying the response text `This is better.`. -/
def jsonC : List Char := "\x7b\"response\":\"This is better.\",\"done\":true\x7d".toList

/-- Sample NDJSON line carrying the response text `XY`. -/
def jsonD : List Char := "\x7b\"response\":\"XY\",\"done\":true\x7d".toList

/-- Concrete `JSON.parse` oracle for the sample lines above. -/
def parseSample (l : List Char) : Option OllamaResp :=
  if l = jsonA then some ⟨"This ".toList, false⟩
  else if l = jsonB then some ⟨"is better.".toList, true⟩
  else if l = jsonC then some ⟨"This is better.".toList, true⟩
  else if l = jsonD then some ⟨"XY".toList, true⟩
  else none

/-- Sample raw body: the two-line stream of the spec's end-to-end example. -/
def rawAB : List Char := jsonA ++ '\n' :: jsonB

/-- Sample editor: buffer `this is bad`, all of it selected. -/
def editorBad : EditorState := ⟨"this is bad".toList, 0, 11⟩

/-- Sample editor: buffer `abc`, all of it selected. -/
def editorAbc : EditorState := ⟨"abc".toList, 0, 3⟩

/-! Helper lemmas about the decode loop. -/

/-- The accumulation loop appends exactly the `response` field of each
kept line, in order. -/
theorem foldl_resp (parse : List Char → Option OllamaResp) :
    ∀ (L : List (List Char)) (acc : List Char),
      L.foldl
        (fun acc l =>
          match parse l with
          | some j => if j.response ≠ [] then acc ++ j.response else acc
          | none => acc)
        acc
      = acc ++ (L.map (respOf parse)).flatten := by
  intro L
  induction L with
  | nil => intro acc; simp
  | cons l L ih =>
    intro acc
    have hstep :
        (match parse l with
          | some j => if j.response ≠ [] then acc ++ j.response else acc
          | none => acc)
        = acc ++ respOf parse l := by
      cases h : parse l with
      | none => simp [respOf, h]
      | some j =>
        by_cases hj : j.response = [] <;> simp [respOf, h, hj]
    simp only [List.foldl_cons, List.map_cons, List.flatten_cons, hstep, ih,
      List.append_assoc]

/-- The concatenated fragment texts of a line list equal the concatenated
`response` fields (empty responses are dropped as fragments but do not
change the concatenation). -/
theorem join_lineFrag (parse : List Char → Option OllamaResp) :
    ∀ L : List (List Char),
      ((L.filterMap (lineFrag parse)).map Fragment.text).flatten
        = (L.map (respOf parse)).flatten := by
  intro L
  induction L with
  | nil => simp
  | cons l L ih =>
    cases h : parse l with
    | none => simp [lineFrag, respOf, h, ih]
    | some j =>
      by_cases hj : j.response = [] <;>
        simp [lineFrag, respOf, h, hj, ih]

/-- Lines whose parse fails contribute nothing: filtering them away first
does not change the fragment list. -/
theorem filterMap_lineFrag_filter (parse : List Char → Option OllamaResp) :
    ∀ L : List (List Char),
      L.filterMap (lineFrag parse)
        = (L.filter (fun l => (parse l).isSome)).filterMap (lineFrag parse) := by
  intro L
  induction L with
  | nil => rfl
  | cons l L ih =>
    cases h : parse l with
    | none => simp [lineFrag, h, ih]
    | some j =>
      by_cases hj : j.response = [] <;> simp [lineFrag, h, hj, ih]

/-- Pointwise: a line's chunk emission is the text of its fragment. -/
theorem lineChunk_eq_map_text (parse : List Char → Option OllamaResp)
    (l : List Char) :
    lineChunk parse l = Option.map Fragment.text (lineFrag parse l) := by
  cases h : parse l with
  | none => simp [lineChunk, lineFrag, h]
  | some j =>
    by_cases hj : j.response = [] <;> simp [lineChunk, lineFrag, h, hj]

/-- The chunk emissions of the streaming loop are the fragment texts. -/
theorem streamChunks_eq_fragment_texts (parse : List Char → Option OllamaResp)
    (raw : List Char) :
    streamChunks parse raw = (decodeFragments parse raw).map Fragment.text := by
  unfold streamChunks decodeFragments
  rw [List.map_filterMap]
  exact List.filterMap_congr (fun l _ => lineChunk_eq_map_text parse l)

/-- C4: for a raw response whose non-blank lines all parse (each to a
string `response` field and boolean `done` field), the decoded
concatenation — both the `fullResponse` accumulator of `improveText` and
the joined fragment texts — equals the concatenation of all `response`
fields in line order, with no fragment reordered or merged. -/
theorem c4_decode_concat (parse : List Char → Option OllamaResp)
    (raw : List Char) (h : ∀ l ∈ decodeLines raw, (parse l).isSome) :
    fullResponseOf parse raw = ((decodeLines raw).map (respOf parse)).flatten ∧
    ((decodeFragments parse raw).map Fragment.text).flatten
      = ((decodeLines raw).map (respOf parse)).flatten := by
  constructor
  · unfold fullResponseOf
    simpa using foldl_resp parse (decodeLines raw) []
  · unfold decodeFragments
    exact join_lineFrag parse (decodeLines raw)

/-- Witness for C4 at the spec's two-line end-to-end example. -/
theorem c4_decode_concat_witness :
    fullResponseOf parseSample rawAB
      = ((decodeLines rawAB).map (respOf parseSample)).flatten ∧
    ((decodeFragments parseSample rawAB).map Fragment.text).flatten
      = ((decodeLines rawAB).map (respOf parseSample)).flatten :=
  c4_decode_concat parseSample rawAB (by decide)

/-- C5: on a raw response with malformed lines, the decode step yields
fragments only for the lines that parse successfully, in their original
relative order (filtering the failing lines away first changes nothing),
and never throws — `decodeFragments` is total, each per-line parse
failure being absorbed; moreover the streaming loop emits exactly the
fragment texts. -/
theorem c5_decode_skips_malformed (parse : List Char → Option OllamaResp)
    (raw : List Char) :
    decodeFragments parse raw
      = ((decodeLines raw).filter (fun l => (parse l).isSome)).filterMap
          (lineFrag parse) ∧
    streamChunks parse raw = (decodeFragments parse raw).map Fragment.text := by
  exact ⟨filterMap_lineFrag_filter parse (decodeLines raw),
    streamChunks_eq_fragment_texts parse raw⟩

/-- C6: in blocking mode, an empty decoded concatenation makes the call
fail with the empty-response error (rethrown with the fixed failure
head by the catch block) instead of returning the empty string, and a
non-empty concatenation is returned as-is. -/
theorem c6_empty_response_fails (parse : List Char → Option OllamaResp)
    (raw : List Char) :
    improveTextM parse (Except.ok raw)
      = if fullResponseOf parse raw = [] then
          Except.error (failMsgHead ++ emptyRespMsg)
        else Except.ok (fullResponseOf parse raw) := by
  unfold improveTextM improveTextInner
  by_cases h : fullResponseOf parse raw = [] <;> simp [h]

/-- Two-step list induction matching the chunking recursion of
`pacedTrace`. -/
def chunkInduction {motive : List Char → Prop} (h0 : motive [])
    (h1 : ∀ a, motive [a])
    (h2 : ∀ a b t, motive t → motive (a :: b :: t)) : ∀ l, motive l
  | [] => h0
  | [a] => h1 a
  | a :: b :: t => h2 a b t (chunkInduction h0 h1 h2 t)

/-- The paced loop performs one mutation per 2-character chunk. -/
theorem pacedTrace_length (text : List Char) :
    ∀ p : Pos, (pacedTrace text p).length = (text.length + 1) / 2 := by
  induction text using chunkInduction with
  | h0 => intro p; simp [pacedTrace]
  | h1 a => intro p; simp [pacedTrace]
  | h2 a b t ih =>
    intro p
    simp only [pacedTrace, List.length_cons, ih, List.length_cons]
    omega

/-- The chunks of the paced loop concatenate back to the inserted text. -/
theorem pacedTrace_flatten (text : List Char) :
    ∀ p : Pos, ((pacedTrace text p).map Prod.fst).flatten = text := by
  induction text using chunkInduction with
  | h0 => intro p; rfl
  | h1 a => intro p; rfl
  | h2 a b t ih =>
    intro p
    simp only [pacedTrace, List.map_cons, List.flatten_cons, ih]
    rfl

/-- The i-th mutation of the paced loop inserts the next (at most) two
characters of the text at the start column advanced by `2 * i`, on the
start line. -/
theorem pacedTrace_get (text : List Char) :
    ∀ (p : Pos) (i : Nat) (hi : i < (pacedTrace text p).length),
      (pacedTrace text p).get ⟨i, hi⟩
        = ((text.drop (2 * i)).take 2, ⟨p.line, p.ch + 2 * i⟩) := by
  induction text using chunkInduction with
  | h0 => intro p i hi; simp [pacedTrace] at hi
  | h1 a =>
    intro p i hi
    simp only [pacedTrace, List.length_cons, List.length_nil] at hi
    interval_cases i
    simp [pacedTrace]
  | h2 a b t ih =>
    intro p i hi
    cases i with
    | zero => simp [pacedTrace]
    | succ i =>
      simp only [pacedTrace, List.length_cons] at hi
      have hi' : i < (pacedTrace t ⟨p.line, p.ch + 2⟩).length := by omega
      have h := ih ⟨p.line, p.ch + 2⟩ i hi'
      simp only [pacedTrace, List.get_cons_succ, h]
      have h2 : 2 * (i + 1) = 2 * i + 1 + 1 := by omega
      rw [h2, List.drop_succ_cons, List.drop_succ_cons]
      simp only [Prod.mk.injEq, Pos.mk.injEq]
      exact ⟨trivial, trivial, by omega⟩

/-- C7: for non-empty text, the paced insertion trace has exactly
`ceil(L/2)` buffer mutations; the i-th inserts the next two characters
(or the final shorter chunk) at a column offset growing by 2 from the
start position, on the same line, so the columns are strictly
increasing; the paced branch of `streamText` applies exactly this trace,
and with streaming disabled `streamText` is a single `replaceRange` of
the whole text at the start position. -/
theorem c7_paced_insertion (text : List Char) (p : Pos) (h : text ≠ []) :
    (pacedTrace text p).length = (text.length + 1) / 2 ∧
    ((pacedTrace text p).map Prod.fst).flatten = text ∧
    (∀ (i : Nat) (hi : i < (pacedTrace text p).length),
      (pacedTrace text p).get ⟨i, hi⟩
        = ((text.drop (2 * i)).take 2, ⟨p.line, p.ch + 2 * i⟩)) ∧
    (∀ s e, s.enableStreaming = true →
      streamText s e text p = applyMutations e (pacedTrace text p)) ∧
    (∀ s e, s.enableStreaming = false →
      streamText s e text p = replaceRangeAt e text p) := by
  refine ⟨pacedTrace_length text p, pacedTrace_flatten text p,
    pacedTrace_get text p, ?_, ?_⟩
  · intro s e hs; simp [streamText, hs]
  · intro s e hs; simp [streamText, hs]

/-- Sample text for the C7 witness: five characters, so the final chunk
is shorter. -/
def chunkDemo : List Char := "abcde".toList

/-- Witness for C7 at a concrete five-character text. -/
theorem c7_paced_insertion_witness :
    chunkDemo ≠ [] ∧
    ((pacedTrace chunkDemo ⟨0, 0⟩).length = (chunkDemo.length + 1) / 2 ∧
    ((pacedTrace chunkDemo ⟨0, 0⟩).map Prod.fst).flatten = chunkDemo ∧
    (∀ (i : Nat) (hi : i < (pacedTrace chunkDemo ⟨0, 0⟩).length),
      (pacedTrace chunkDemo ⟨0, 0⟩).get ⟨i, hi⟩
        = ((chunkDemo.drop (2 * i)).take 2, ⟨0, 0 + 2 * i⟩)) ∧
    (∀ s e, s.enableStreaming = true →
      streamText s e chunkDemo ⟨0, 0⟩
        = applyMutations e (pacedTrace chunkDemo ⟨0, 0⟩)) ∧
    (∀ s e, s.enableStreaming = false →
      streamText s e chunkDemo ⟨0, 0⟩ = replaceRangeAt e chunkDemo ⟨0, 0⟩)) :=
  ⟨by decide, c7_paced_insertion chunkDemo ⟨0, 0⟩ (by decide)⟩

/-- Sample hotkey string with no modifier part. -/
def hkB : List Char := "B".toList

/-- Sample hotkey string with mixed-case and unrecognized modifiers. -/
def hkMixed : List Char := "cTrL+Hyper+SHIFT+B".toList

/-- C8: the hotkey parsing examples and the failure condition —
`Ctrl+Shift+B` maps to modifiers `[Mod, Shift]` with key `b`; a bare
key or the empty string yields `none`; modifier aliases are matched
case-insensitively and unrecognized modifier tokens are silently
dropped (never thrown); and in general the result is `none` exactly
when the normalized key token is empty or no modifier survives the
filtering. -/
theorem c8_hotkey_parse :
    parseHotkey DEFAULT_SETTINGS.improveHotkey
      = some ([HkModifier.Mod, HkModifier.Shift], ['b']) ∧
    parseHotkey hkB = none ∧
    parseHotkey [] = none ∧
    parseHotkey hkMixed = some ([HkModifier.Mod, HkModifier.Shift], ['b']) ∧
    (∀ hk : List Char,
      parseHotkey hk = none ↔ (hotkeyKey hk = [] ∨ hotkeyMods hk = [])) := by
  refine ⟨by decide, by decide, by decide, by decide, ?_⟩
  intro hk
  unfold parseHotkey
  by_cases h : hotkeyKey hk = [] ∨ hotkeyMods hk = [] <;> simp [h]

set_option maxRecDepth 8000 in
/-- C1 (code bug): evaluation at a failing input. With the default
settings (placeholder shown) and a network failure, the catch block's
`replaceSelection(selectedText)` inserts the original text at the
cursor — which sits after the placeholder, the selection having been
consumed when the placeholder was shown — so the buffer ends up as the
placeholder followed by the original text, not byte-identical to the
original buffer as the claim (and the source comment `Restore original
on error`) requires. The error notice itself is shown as claimed. -/
theorem c1_failure_not_rolled_back :
    (improveSelectedText DEFAULT_SETTINGS parseSample
        (Except.error ['b', 'o', 'o', 'm']) editorBad).1.buf
      = "Improving...this is bad".toList ∧
    (improveSelectedText DEFAULT_SETTINGS parseSample
        (Except.error ['b', 'o', 'o', 'm']) editorBad).2
      = some (errNoticeHead ++ failMsgHead ++ ['b', 'o', 'o', 'm']) ∧
    "Improving...this is bad".toList ≠ editorBad.buf := by
  refine ⟨by decide, by decide, by decide⟩

/-- Settings for the C2 failing input: replace mode with the generating
placeholder disabled (and instant insertion). -/
def settingsC2 : OllamaSettings :=
  { DEFAULT_SETTINGS with
      showGeneratingText := false
      replaceOriginal := true
      enableStreaming := false }

set_option maxRecDepth 8000 in
/-- C2 (code bug): evaluation at a failing input. In replace mode with
`showGeneratingText` disabled, the selection is never consumed, and the
final `streamText` call is a pure insertion at the selection start, so
the original selected text survives right after the result: the buffer
becomes `XYabc`, not `XY` as the claim (and the source comment
`Replace mode - directly replace the selection or generating text`)
requires. With the placeholder enabled the replace path does remove
both placeholder and original. -/
theorem c2_replace_mode_keeps_original :
    (improveSelectedText settingsC2 parseSample (Except.ok jsonD)
        editorAbc).1.buf = "XYabc".toList ∧
    (improveSelectedText settingsC2 parseSample (Except.ok jsonD)
        editorAbc).2 = none ∧
    "XYabc".toList ≠ "XY".toList := by
  refine ⟨by decide, by decide, by decide⟩

set_option maxRecDepth 8000 in
/-- C3 (code bug): evaluation at a failing input — the spec's own
end-to-end example under the default settings (insert-below mode,
placeholder shown, paced streaming). The `replaceSelection(selectedText)`
restore inserts the original text after the placeholder instead of
replacing it, and the subsequent insertions use the stale pre-placeholder
selection end, so the buffer region becomes
`Improving..(two newlines)(the configured marker line)This is better..this is bad`
instead of the claimed
`this is bad(two newlines)(the configured marker line)This is better.`. -/
theorem c3_insert_below_mangles_buffer :
    (improveSelectedText DEFAULT_SETTINGS parseSample (Except.ok rawAB)
        editorBad).1.buf
      = "Improving..\n\n✨ Improved version:\nThis is better..this is bad".toList ∧
    (improveSelectedText DEFAULT_SETTINGS parseSample (Except.ok rawAB)
        editorBad).2 = none ∧
    "Improving..\n\n✨ Improved version:\nThis is better..this is bad".toList
      ≠ "this is bad\n\n✨ Improved version:\nThis is better.".toList := by
  refine ⟨by decide, by decide, by decide⟩

/-- C9 counterexample: the claim says the blocking-mode POST body has
its `stream` flag set to false, but the object literal built by
`improveText` contains no `stream` key at all (`stream = none` in the
embedding, not `some false`). -/
theorem c9_stream_flag_counterexample :
    (improveTextBody DEFAULT_SETTINGS ['x']).stream ≠ some false := by
  decide

/-- C9 (amended): the blocking-mode body of `improveText` omits the
`stream` field entirely (so the server default applies), while the
streaming-mode body of `streamImprovedText` sets `stream` to true; both
bodies carry the model, the prompt (templated in blocking mode, raw in
streaming mode), the system prompt, and the options `temperature` and
`num_predict` from the settings. -/
theorem c9_request_bodies (s : OllamaSettings) (text : List Char) :
    (improveTextBody s text).stream = none ∧
    (streamImprovedTextBody s text).stream = some true ∧
    (improveTextBody s text).model = s.model ∧
    (improveTextBody s text).prompt
      = "Please improve this text:\n\n".toList ++ text ∧
    (improveTextBody s text).system = s.systemPrompt ∧
    (improveTextBody s text).options = ⟨s.temperature, s.maxTokens⟩ ∧
    (streamImprovedTextBody s text).model = s.model ∧
    (streamImprovedTextBody s text).prompt = text ∧
    (streamImprovedTextBody s text).system = s.systemPrompt ∧
    (streamImprovedTextBody s text).options = ⟨s.temperature, s.maxTokens⟩ :=
  ⟨rfl, rfl, rfl, rfl, rfl, rfl, rfl, rfl, rfl, rfl⟩

/-- C10: every error out of the blocking generation call carries the
fixed failure head followed by the underlying message — and in the
empty-response case specifically, the internal empty-response error is
raised inside the same try block as the network request, so it is
caught and re-wrapped by the same handler, yielding the head followed
by the empty-response message (indistinguishable in kind from a
transport failure at the caller). -/
theorem c10_error_wrap :
    (∀ (parse : List Char → Option OllamaResp)
        (net : Except (List Char) (List Char)) (e : List Char),
      improveTextM parse net = Except.error e →
        ∃ m, e = failMsgHead ++ m) ∧
    (∀ (parse : List Char → Option OllamaResp) (raw : List Char),
      fullResponseOf parse raw = [] →
        improveTextM parse (Except.ok raw)
          = Except.error (failMsgHead ++ emptyRespMsg)) := by
  constructor
  · intro parse net e h
    unfold improveTextM at h
    cases hi : improveTextInner parse net with
    | ok r => rw [hi] at h; exact absurd h (by simp)
    | error m =>
      rw [hi] at h
      exact ⟨m, by injection h with h2; exact h2.symm⟩
  · intro parse raw h
    unfold improveTextM improveTextInner
    simp [h]

/-- Witness for C10 at the concrete empty body: the empty-response error
is produced and carries the failure head. -/
theorem c10_error_wrap_witness :
    improveTextM parseSample (Except.ok [])
      = Except.error (failMsgHead ++ emptyRespMsg) ∧
    (∃ m, failMsgHead ++ emptyRespMsg = failMsgHead ++ m) := by
  have h1 := c10_error_wrap.2 parseSample [] (by decide)
  exact ⟨h1, c10_error_wrap.1 parseSample (Except.ok []) _ h1⟩

end Ollama
